import Mathlib

/-!
Verification of `sqlalchemy_searchable/__init__.py` (version 0.5.0).

This file shallowly embeds the query normalizer (`filter_term`,
`parse_search_query`), the SQL construct family (`SQLConstruct` and its
subclasses), the option resolution logic, and the schema-automation
orchestrator (`SearchManager.attach_ddl_listeners`) as executable Lean
definitions, and proves theorems about them.

The grammar parser (`SearchQueryParser` from the sibling `parser` module) and
the external `validators.email` predicate are not part of the source file;
where needed they are modelled from the specification and marked as such.
-/

set_option autoImplicit false

/-- Python whitespace test used by `str.strip`, `str.split` and the regex
class `\s`, restricted to the codepoints below U+0100 (all inputs appearing in
this development are drawn from that range). -/
def isPySpace (c : Char) : Bool :=
  c = ' ' || c = '\t' || c = '\n' || c = '\r' || c = '\x0b' || c = '\x0c' ||
  c = '\x1c' || c = '\x1d' || c = '\x1e' || c = '\x1f' || c = '\x85' || c = '\xa0'

/-- Modelled from the spec: the character class complementary to
`unicode_non_alnum`, which lives in the missing `parser` module.  Per the spec
it holds every character inside `[A-Za-z0-9]` or the Unicode letter/digit
categories; modelled here on ASCII alphanumerics plus the Latin-1 Supplement
and Latin Extended-A letters, which covers every character these theorems
exercise. -/
def isSearchAlnum (c : Char) : Bool :=
  c.isAlphanum ||
  (0xC0 ≤ c.toNat && c.toNat ≤ 0x17F && c.toNat ≠ 0xD7 && c.toNat ≠ 0xF7)

/-- Modelled from the spec: the email validator (`validators.email`) is an
external collaborator, not part of the source file.  A token is treated as a
syntactically valid address when it splits as `local@domain` with a nonempty
local part and a domain that contains a dot and neither starts nor ends with
one. -/
def emailM (s : String) : Bool :=
  match s.toList.splitOn '@' with
  | [loc, dom] =>
      !loc.isEmpty && !dom.isEmpty && dom.contains '.' &&
      dom.head? ≠ some '.' && dom.getLast? ≠ some '.'
  | _ => false

/-- Python `str.strip` on a character list: drop leading and trailing
whitespace. -/
def pyStripL (l : List Char) : List Char :=
  ((l.dropWhile isPySpace).reverse.dropWhile isPySpace).reverse

/-- Python `str.strip` on strings. -/
def pyStrip (s : String) : String :=
  String.mk (pyStripL s.toList)

/-- Helper for `pySplitL`: `acc` holds the characters of the current word in
reverse order. -/
def pySplitAux : List Char → List Char → List (List Char)
  | acc, [] => if acc.isEmpty then [] else [acc.reverse]
  | acc, c :: rest =>
      if isPySpace c then
        if acc.isEmpty then pySplitAux [] rest
        else acc.reverse :: pySplitAux [] rest
      else pySplitAux (c :: acc) rest

/-- Python `str.split()` with no argument: split on whitespace runs, dropping
empty pieces. -/
def pySplitL (l : List Char) : List (List Char) :=
  pySplitAux [] l

/-- Python `' '.join`: interpose a single space between consecutive list
elements (empty elements included). -/
def joinSpL : List (List Char) → List Char
  | [] => []
  | [x] => x
  | x :: xs => x ++ ' ' :: joinSpL xs

/-- Scanner for `re.sub(r'[%s]+' % unicode_non_alnum, ' ', term)`: each
maximal run of non-alphanumeric characters is replaced by one space.  The
boolean records whether the previous character belonged to such a run. -/
def subNonAlnumAux : Bool → List Char → List Char
  | _, [] => []
  | prevIll, c :: rest =>
      if isSearchAlnum c then c :: subNonAlnumAux false rest
      else if prevIll then subNonAlnumAux true rest
      else ' ' :: subNonAlnumAux true rest

/-- Embedding of `filter_term`, parametrized by the external email predicate
`ep` (the source calls `validators.email`). -/
def filter_term (ep : String → Bool) (term : String) : String :=
  if ep term then term
  else String.mk (subNonAlnumAux false term.toList)

/-- Per-character illegal-character replacement: the reading of the spec's
"every character outside the classes is replaced by a single space". -/
def perCharIllegal (l : List Char) : List Char :=
  l.map (fun c => if isSearchAlnum c then c else ' ')

/-- Collapse every run of consecutive spaces into one space; the boolean
records whether the previous character was a space. -/
def squeezeSp : Bool → List Char → List Char
  | _, [] => []
  | pv, c :: rest =>
      if c = ' ' then
        if pv then squeezeSp true rest else ' ' :: squeezeSp true rest
      else c :: squeezeSp false rest

/-- Spec-side reading of `filter_term` taken literally from the claim: valid
emails pass through; otherwise every illegal character individually becomes a
space and the result is re-trimmed. -/
def filterTermClaim (ep : String → Bool) (term : String) : String :=
  if ep term then term
  else String.mk (pyStripL (perCharIllegal term.toList))

/-- Lookbehind `[^\s|^]` of the hyphen regex: the previous character must
exist and be neither whitespace nor a literal `|` nor a literal `^`. -/
def hyphPrevOK : Option Char → Bool
  | none => false
  | some p => !(isPySpace p || p = '|' || p = '^')

/-- Lookahead `[^\s]` of the hyphen regex: the next character must exist and
not be whitespace. -/
def hyphNextOK : List Char → Bool
  | [] => false
  | n :: _ => !isPySpace n

/-- Scanner for `re.sub(r'(?i)(?<=[^\s|^])-(?=[^\s])', ' ', query)`.  Each
match is the single character `-`; the lookarounds inspect the original
string, so the original previous character is threaded through. -/
def hyphenSubAux : Option Char → List Char → List Char
  | _, [] => []
  | p, c :: rest =>
      (if c = '-' && hyphPrevOK p && hyphNextOK rest then ' ' else c) ::
        hyphenSubAux (some c) rest

/-- Hyphen-to-space substitution on a character list (no predecessor at the
start of the string). -/
def hyphenSubL (l : List Char) : List Char :=
  hyphenSubAux none l

/-- Hyphen-to-space substitution on strings. -/
def hyphenSub (s : String) : String :=
  String.mk (hyphenSubL s.toList)

/-- Spec-side reading of the hyphen rule taken literally from the claim:
every hyphen preceded by any non-whitespace character (not only those outside
`|`/`^`) and followed by a non-whitespace character becomes a space. -/
def hyphenSubClaimAux : Option Char → List Char → List Char
  | _, [] => []
  | p, c :: rest =>
      (if c = '-' && (match p with | none => false | some q => !isPySpace q)
          && hyphNextOK rest then ' ' else c) ::
        hyphenSubClaimAux (some c) rest

/-- Spec-side hyphen substitution on strings. -/
def hyphenSubClaim (s : String) : String :=
  String.mk (hyphenSubClaimAux none s.toList)

/-- The token list produced inside `parse_search_query`: strip, hyphen
substitution, whitespace split, then `filter_term(part).strip()` for each
nonempty part. -/
def filteredTokens (ep : String → Bool) (query : String) : List (List Char) :=
  ((pySplitL (hyphenSubL (pyStripL query.toList))).filter
      (fun p => !p.isEmpty)).map
    (fun p => pyStripL (filter_term ep (String.mk p)).toList)

/-- The string handed to the grammar parser: the space-join of all filtered
tokens (including the ones filtering emptied). -/
def normalized_query (ep : String → Bool) (query : String) : String :=
  String.mk (joinSpL (filteredTokens ep query))

/-- Embedding of `parse_search_query`, parametrized by the email predicate
`ep` and the grammar parser `pp`.  The parser is modelled from the spec as an
Option-valued function: `none` stands for `pyparsing.ParseException`, the only
exception the source's `except` clause handles, and the spec's failure policy
says every grammar violation surfaces that way. -/
def parse_search_query (ep : String → Bool) (pp : String → Option String)
    (query : String) : String :=
  let q := normalized_query ep query
  if q = "" then ""
  else
    match pp q with
    | some r => r
    | none => ""

/-- Spec-side reading of the token join taken literally from the claim: only
the surviving non-empty filtered tokens are joined. -/
def normalizedQueryClaim (ep : String → Bool) (query : String) : String :=
  String.mk (joinSpL ((filteredTokens ep query).filter (fun p => !p.isEmpty)))

/-- Python values stored in the option dictionaries: strings, booleans, and
`None`. -/
inductive OptVal where
  | s (v : String)
  | b (v : Bool)
  | none0
  deriving DecidableEq, Repr

/-- Python truthiness of an option value, as used by
`if self.options['remove_hyphens']:`. -/
def OptVal.truthy : OptVal → Bool
  | .s v => v ≠ ""
  | .b v => v
  | .none0 => false

/-- Rendering of an option value by `'%s' % value` / `str.format`. -/
def OptVal.fmt : OptVal → String
  | .s v => v
  | .b true => "True"
  | .b false => "False"
  | .none0 => "None"

/-- Python dictionary with string keys, modelled as an association list in
insertion order (keys are unique by construction of the operations). -/
abbrev Dict : Type := List (String × OptVal)

/-- Dictionary lookup, `d[k]` as an `Option` (a `KeyError` is `none`). -/
def Dict.find : Dict → String → Option OptVal
  | [], _ => none
  | (k', v) :: rest, k => if k' = k then some v else Dict.find rest k

/-- Python `dict.setdefault`: keep an existing entry, otherwise append the
pair at the end. -/
def Dict.setdefault (d : Dict) (k : String) (v : OptVal) : Dict :=
  if (d.find k).isSome then d else d ++ [(k, v)]

/-- Python `d[k] = v`: replace the value in place if the key exists,
otherwise append. -/
def Dict.setItem (d : Dict) (k : String) (v : OptVal) : Dict :=
  if (d.find k).isSome then
    d.map (fun kv => if kv.1 = k then (k, v) else kv)
  else d ++ [(k, v)]

/-- Python `d.update(u)`: assign every pair of `u` into `d` in order. -/
def dictUpdate (d u : Dict) : Dict :=
  u.foldl (fun acc kv => acc.setItem kv.1 kv.2) d

/-- The literal `SearchManager.default_options` class attribute, in its source
insertion order. -/
def default_options : Dict :=
  [("tablename", .none0),
   ("remove_hyphens", .b true),
   ("search_trigger_name", .s "{table}_{column}_trigger"),
   ("search_index_name", .s "{table}_{column}_index"),
   ("search_trigger_function_name", .s "{table}_{column}_update"),
   ("catalog", .s "pg_catalog.english")]

/-- Python `template.format(table=..., column=...)` for the name templates:
each occurrence of the two fields is replaced by its argument. -/
def fmtTC (t c : String) : List Char → List Char
  | '{' :: 't' :: 'a' :: 'b' :: 'l' :: 'e' :: '}' :: rest =>
      t.toList ++ fmtTC t c rest
  | '{' :: 'c' :: 'o' :: 'l' :: 'u' :: 'm' :: 'n' :: '}' :: rest =>
      c.toList ++ fmtTC t c rest
  | x :: rest => x :: fmtTC t c rest
  | [] => []

/-- String-level wrapper of `fmtTC`. -/
def fmtTableColumn (template t c : String) : String :=
  String.mk (fmtTC t c template.toList)

/-- The table attached to a column: an optional schema and a name
(`column.table.schema` / `column.table.name`). -/
structure SATable where
  schema : Option String
  name : String
  deriving DecidableEq, Repr

/-- A searchable column as the SQL construct family consumes it:
`column.table`, `column.name`, `column.type.columns` (the ordered source
columns) and `column.type.options` (`none` models a type carrying no
`options` attribute, which raises `AttributeError`). -/
structure SAColumn where
  table : SATable
  name : String
  typeColumns : List String
  typeOptions : Option Dict
  deriving DecidableEq, Repr

/-- Embedding of the resolution loop in `SQLConstruct.__init__`: a `None` or
empty call-site dict becomes a fresh empty dict, then for every key of the
defaults dict, `setdefault` installs the column-declared value when present
and the default value otherwise. -/
def resolveOptions (explicit : Option Dict) (colOpts : Option Dict)
    (defaults : Dict) : Dict :=
  defaults.foldl
    (fun acc kv =>
      acc.setdefault kv.1 ((colOpts.bind (fun d => d.find kv.1)).getD kv.2))
    (explicit.getD [])

/-- Option lookup on a resolved dict, rendered with `%s` semantics (a key the
caller's contract guarantees to exist; a missing key renders as `None` would
never be produced by `resolveOptions` over `default_options`). -/
def optStr (opts : Dict) (k : String) : String :=
  ((opts.find k).getD .none0).fmt

/-- The `table_name` property: `schema."table"` when a schema is set, else
`"table"`. -/
def table_name (col : SAColumn) : String :=
  match col.table.schema with
  | some sch => sch ++ ".\"" ++ col.table.name ++ "\""
  | none => "\"" ++ col.table.name ++ "\""

/-- The `search_index_name` property. -/
def search_index_name (col : SAColumn) (opts : Dict) : String :=
  fmtTableColumn (optStr opts "search_index_name") col.table.name col.name

/-- The `search_function_name` property. -/
def search_function_name (col : SAColumn) (opts : Dict) : String :=
  fmtTableColumn (optStr opts "search_trigger_function_name")
    col.table.name col.name

/-- The `search_trigger_name` property. -/
def search_trigger_name (col : SAColumn) (opts : Dict) : String :=
  fmtTableColumn (optStr opts "search_trigger_name") col.table.name col.name

/-- The `search_function_args` property:
`CONCAT(REPLACE(COALESCE(NEW.c, ''), '-', ' '), ' ', ...)`. -/
def search_function_args (col : SAColumn) : String :=
  "CONCAT(" ++
    String.intercalate ", "
      (col.typeColumns.map
        (fun cn => "REPLACE(COALESCE(NEW." ++ cn ++ ", ''), '-', ' '), ' '"))
    ++ ")"

/-- Rendering of `CreateSearchIndexSQL.__str__`. -/
def createSearchIndexSQLStr (col : SAColumn) (opts : Dict) : String :=
  "CREATE INDEX " ++ search_index_name col opts ++ " ON " ++ table_name col ++
    " USING gin(" ++ col.name ++ ")"

/-- Rendering of `CreateSearchFunctionSQL.__str__`, whitespace reproduced
from the source's triple-quoted template.  The concatenation is grouped so
that the quoted catalog literal is a visible segment. -/
def createSearchFunctionSQLStr (col : SAColumn) (opts : Dict) : String :=
  ("CREATE FUNCTION\n                " ++ search_function_name col opts ++
      "() RETURNS TRIGGER AS $$\n            BEGIN\n                NEW." ++
      col.name ++ " = to_tsvector(\n                    ") ++
    ("'" ++ (optStr opts "catalog" ++ ("', " ++
      (search_function_args col ++
        ("\n                );\n                RETURN NEW;\n            END\n"
          ++ "            $$ LANGUAGE 'plpgsql';\n            ")))))

/-- The `search_trigger_function_with_trigger_args` property: the procedure
call of the rendered trigger.  The source branches only on the truthiness of
`remove_hyphens`. -/
def search_trigger_function_with_trigger_args (col : SAColumn) (opts : Dict) :
    String :=
  if (((opts.find "remove_hyphens").getD .none0)).truthy then
    search_function_name col opts ++ "()"
  else
    "tsvector_update_trigger(" ++
      String.intercalate ", "
        ([col.name, "'" ++ optStr opts "catalog" ++ "'"] ++ col.typeColumns)
      ++ ")"

/-- Spec-side reading of the procedure call taken literally from the claim:
the generated function is invoked only when `remove_hyphens` is true AND the
column has source columns. -/
def triggerProcedureClaim (col : SAColumn) (opts : Dict) : String :=
  if (((opts.find "remove_hyphens").getD .none0)).truthy
      && !col.typeColumns.isEmpty then
    search_function_name col opts ++ "()"
  else
    "tsvector_update_trigger(" ++
      String.intercalate ", "
        ([col.name, "'" ++ optStr opts "catalog" ++ "'"] ++ col.typeColumns)
      ++ ")"

/-- Rendering of `CreateSearchTriggerSQL.__str__`. -/
def createSearchTriggerSQLStr (col : SAColumn) (opts : Dict) : String :=
  "CREATE TRIGGER " ++ search_trigger_name col opts ++
    " BEFORE UPDATE OR INSERT ON " ++ table_name col ++
    " FOR EACH ROW EXECUTE PROCEDURE " ++
    search_trigger_function_with_trigger_args col opts

/-- Rendering of `DropSearchFunctionSQL.__str__`. -/
def dropSearchFunctionSQLStr (col : SAColumn) (opts : Dict) : String :=
  "DROP FUNCTION IF EXISTS " ++ search_function_name col opts ++ "()"

/-- The `article` table of the spec's examples. -/
def articleTable : SATable := ⟨none, "article"⟩

/-- The `search_vector` column on `article` with default options and no
source columns. -/
def articleSV : SAColumn := ⟨articleTable, "search_vector", [], none⟩

/-- Schema lifecycle phases used by `event.listen`. -/
inductive Phase where
  | afterCreate
  | afterDrop
  deriving DecidableEq, Repr

/-- State of one `SearchManager` as the orchestrator sees it: the
`processed_columns` list and the `event.listen` registrations made so far,
each a `(table name, phase, DDL text)` triple. -/
structure RegState where
  processed : List String
  regs : List (String × Phase × String)
  deriving DecidableEq, Repr

/-- One `event.listen(table, phase, ddl)` call. -/
def eventListen (st : RegState) (tbl : String) (ph : Phase) (ddl : String) :
    RegState :=
  { st with regs := st.regs ++ [(tbl, ph, ddl)] }

/-- Embedding of `SearchManager.option`: attempt the column-declared options,
fall back to the manager's options on `AttributeError`/`KeyError` (a key also
missing there is modelled as `None`, which is falsy). -/
def managerOption (opts : Dict) (col : SAColumn) (name : String) : OptVal :=
  ((col.typeOptions.bind (fun d => d.find name)).orElse
    (fun _ => opts.find name)).getD .none0

/-- The dedup key built by `attach_ddl_listeners`:
`'%s_%s' % (table.name, column.name)`. -/
def processKey (tbl colName : String) : String :=
  tbl ++ "_" ++ colName

/-- Embedding of the per-column body of
`SearchManager.attach_ddl_listeners`.  `opts` stands for the shared options
dictionary: the manager's `self.options` aliases the class-level
`SearchManager.default_options` (proved below for the heap model), so the
same dict serves as `SearchManager.option`'s fallback and as the defaults the
`SQLConstruct` resolution reads. -/
def processColumn (opts : Dict) (st : RegState) (col : SAColumn) : RegState :=
  if processKey col.table.name col.name ∈ st.processed then st
  else
    let resolved := resolveOptions none col.typeOptions opts
    let st1 := eventListen st col.table.name .afterCreate
      (createSearchIndexSQLStr col resolved)
    let st2 :=
      if col.typeColumns.isEmpty then st1
      else
        let stf :=
          if (managerOption opts col "remove_hyphens").truthy then
            eventListen
              (eventListen st1 col.table.name .afterCreate
                (createSearchFunctionSQLStr col resolved))
              col.table.name .afterDrop
              (dropSearchFunctionSQLStr col resolved)
          else st1
        eventListen stf col.table.name .afterCreate
          (createSearchTriggerSQLStr col resolved)
    { st2 with
      processed := st2.processed ++ [processKey col.table.name col.name] }

/-- Heap of Python dict objects: cell `0` is the class-level
`SearchManager.default_options` object, the remaining cells are addressed by
successor references.  The source never allocates a fresh options dict, so no
allocation operation is needed. -/
structure Heap where
  cell0 : Dict
  rest : List Dict
  deriving DecidableEq, Repr

/-- Dereference a heap cell. -/
def Heap.get : Heap → Nat → Dict
  | h, 0 => h.cell0
  | h, n + 1 => h.rest.getD n []

/-- Overwrite a heap cell in place. -/
def Heap.set : Heap → Nat → Dict → Heap
  | h, 0, d => ⟨d, h.rest⟩
  | h, n + 1, d => ⟨h.cell0, h.rest.set n d⟩

/-- The reference of the class-level `SearchManager.default_options`
object. -/
def defaultOptionsRef : Nat := 0

/-- A `SearchManager` instance as far as its options are concerned: a
reference to the dict object its `self.options` attribute points at. -/
structure PyManager where
  optionsRef : Nat
  deriving DecidableEq, Repr

/-- Embedding of `SearchManager.__init__`: `self.options =
self.default_options` binds the class-level object itself (no copy), and
`self.options.update(options)` then mutates that shared object in place. -/
def SearchManager_init (h : Heap) (options : Dict) : PyManager × Heap :=
  (⟨defaultOptionsRef⟩,
   h.set defaultOptionsRef (dictUpdate (h.get defaultOptionsRef) options))

/-- Embedding of the options side of `make_searchable`:
`manager.options.update(options)` mutates whichever dict object the manager's
`options` attribute references. -/
def make_searchable (h : Heap) (m : PyManager) (options : Dict) : Heap :=
  h.set m.optionsRef (dictUpdate (h.get m.optionsRef) options)

/-- An `article` column that declares source columns, for exercising the
function/trigger path. -/
def articleSVFull : SAColumn :=
  ⟨articleTable, "search_vector", ["name", "content"], none⟩

theorem Dict.find_append (d e : Dict) (k : String) :
    Dict.find (d ++ e) k =
      match d.find k with
      | some v => some v
      | none => e.find k := by
  induction d with
  | nil => simp [Dict.find]
  | cons kv rest ih =>
    by_cases h : kv.1 = k <;>
      simp [Dict.find, h, ih]

theorem Dict.find_setdefault_self (d : Dict) (k : String) (v : OptVal) :
    (d.setdefault k v).find k = some ((d.find k).getD v) := by
  unfold Dict.setdefault
  by_cases h : (d.find k).isSome
  · rw [if_pos h]
    obtain ⟨w, hw⟩ := Option.isSome_iff_exists.mp h
    simp [hw]
  · rw [if_neg h]
    rw [Dict.find_append]
    rw [Option.not_isSome_iff_eq_none] at h
    simp [h, Dict.find]

theorem Dict.find_setdefault_ne (d : Dict) (k k' : String) (v : OptVal)
    (h : k ≠ k') : (d.setdefault k v).find k' = d.find k' := by
  unfold Dict.setdefault
  by_cases hs : (d.find k).isSome
  · rw [if_pos hs]
  · rw [if_neg hs, Dict.find_append]
    simp [Dict.find, h]
    cases d.find k' <;> rfl

theorem resolve_foldl_find (defs : Dict) (col : Option Dict) :
    ∀ (acc : Dict) (k : String),
      (defs.foldl
          (fun a kv =>
            a.setdefault kv.1 ((col.bind (fun d => d.find kv.1)).getD kv.2))
          acc).find k =
        match acc.find k with
        | some v => some v
        | none =>
            (Dict.find defs k).map
              (fun dv => (col.bind (fun d => d.find k)).getD dv) := by
  induction defs with
  | nil =>
    intro acc k
    simp only [List.foldl_nil, Dict.find]
    cases acc.find k <;> rfl
  | cons kv rest ih =>
    intro acc k
    simp only [List.foldl_cons]
    rw [ih]
    by_cases h : kv.1 = k
    · subst h
      rw [Dict.find_setdefault_self]
      cases hacc : acc.find kv.1 <;>
        simp [Dict.find, hacc]
    · rw [Dict.find_setdefault_ne _ _ _ _ h]
      cases hacc : acc.find k <;>
        simp [Dict.find, hacc, h]

theorem resolveOptions_find (explicit colOpts : Option Dict) (defaults : Dict)
    (k : String) :
    (resolveOptions explicit colOpts defaults).find k =
      match (explicit.getD []).find k with
      | some v => some v
      | none =>
          (defaults.find k).map
            (fun dv => (colOpts.bind (fun d => d.find k)).getD dv) := by
  unfold resolveOptions
  exact resolve_foldl_find defaults colOpts (explicit.getD []) k

theorem hyphenSubAux_getD (l : List Char) :
    ∀ (p : Option Char) (i : Nat), i < l.length →
      (hyphenSubAux p l).getD i 'X' =
        if (l.getD i 'X' = '-') &&
            (match i with
             | 0 => hyphPrevOK p
             | j + 1 => hyphPrevOK (some (l.getD j 'X'))) &&
            hyphNextOK (l.drop (i + 1)) then ' '
        else l.getD i 'X' := by
  induction l with
  | nil =>
    intro p i h
    simp at h
  | cons c rest ih =>
    intro p i h
    cases i with
    | zero =>
      simp only [hyphenSubAux, List.getD_cons_zero, List.drop_succ_cons,
        List.drop_zero]
    | succ j =>
      have hj : j < rest.length := by
        simpa using Nat.lt_of_succ_lt_succ h
      simp only [hyphenSubAux, List.getD_cons_succ, List.drop_succ_cons]
      rw [ih (some c) j hj]
      cases j with
      | zero => simp only [List.getD_cons_zero]
      | succ m => simp only [List.getD_cons_succ]

theorem subNonAlnumAux_eq_squeeze (l : List Char) :
    ∀ b : Bool, subNonAlnumAux b l = squeezeSp b (perCharIllegal l) := by
  induction l with
  | nil => intro b; rfl
  | cons c rest ih =>
    intro b
    by_cases ha : isSearchAlnum c = true
    · have hc : ¬(c = ' ') := by
        intro he
        subst he
        simp [isSearchAlnum, Char.isAlphanum, Char.isAlpha, Char.isUpper,
          Char.isLower, Char.isDigit] at ha
      simp [subNonAlnumAux, perCharIllegal, squeezeSp, ha, hc, ih]
    · simp only [Bool.not_eq_true] at ha
      cases b <;>
        simp [subNonAlnumAux, perCharIllegal, squeezeSp, ha, ih]

theorem processColumn_of_mem (opts : Dict) (st : RegState) (col : SAColumn)
    (h : processKey col.table.name col.name ∈ st.processed) :
    processColumn opts st col = st := by
  unfold processColumn
  rw [if_pos h]

theorem processKey_mem (opts : Dict) (st : RegState) (col : SAColumn) :
    processKey col.table.name col.name ∈ (processColumn opts st col).processed := by
  unfold processColumn
  by_cases h : processKey col.table.name col.name ∈ st.processed
  · rw [if_pos h]
    exact h
  · rw [if_neg h]
    by_cases h1 : col.typeColumns.isEmpty <;>
      by_cases h2 : (managerOption opts col "remove_hyphens").truthy <;>
        simp [eventListen, h1, h2]

/-- C1, counterexample: with default options the rendered index statement
does not double-quote the index name, so it differs from the claimed literal
`CREATE INDEX "article_search_vector_index" ON "article" USING gin(search_vector)`. -/
theorem C1_counterexample :
    createSearchIndexSQLStr articleSV
        (resolveOptions none none default_options) ≠
      "CREATE INDEX \"article_search_vector_index\" ON \"article\" USING gin(search_vector)" := by
  decide

/-- C1, amended: for the column `search_vector` on the unqualified table
`article` with default options, the rendered index-construct text equals
exactly `CREATE INDEX article_search_vector_index ON "article" USING
gin(search_vector)`: the table name is double-quoted, the index name is
not. -/
theorem C1_theorem :
    createSearchIndexSQLStr articleSV
        (resolveOptions none none default_options) =
      "CREATE INDEX article_search_vector_index ON \"article\" USING gin(search_vector)" := by
  decide

/-- C2, counterexample: the registry key is the underscore-join of table name
and column name, so the distinct pairs `("a_b", "c")` and `("a", "b_c")`
collide; after the first is registered, registering the second is a complete
no-op and it gets no registration of its own. -/
theorem C2_counterexample :
    (SAColumn.mk ⟨none, "a_b"⟩ "c" [] none ≠
      SAColumn.mk ⟨none, "a"⟩ "b_c" [] none) ∧
    processColumn default_options
        (processColumn default_options ⟨[], []⟩ ⟨⟨none, "a_b"⟩, "c", [], none⟩)
        ⟨⟨none, "a"⟩, "b_c", [], none⟩ =
      processColumn default_options ⟨[], []⟩ ⟨⟨none, "a_b"⟩, "c", [], none⟩ :=
  ⟨by decide, by decide⟩

/-- C2, amended: the registry is keyed by the string `table + "_" + column`.
Registering any column whose key already occurs in the registry is a no-op —
in particular registering the same (table, column) twice — and a
not-yet-processed key is appended exactly once; two distinct (table, column)
pairs are tracked as distinct keys only when their underscore-joined strings
differ. -/
theorem C2_theorem (opts : Dict) (st : RegState) (c c' : SAColumn)
    (hk : processKey c'.table.name c'.name = processKey c.table.name c.name) :
    processColumn opts (processColumn opts st c) c' =
      processColumn opts st c ∧
    (processKey c.table.name c.name ∉ st.processed →
      (processColumn opts st c).processed =
        st.processed ++ [processKey c.table.name c.name]) := by
  constructor
  · exact processColumn_of_mem opts _ c' (hk ▸ processKey_mem opts st c)
  · intro hn
    unfold processColumn
    rw [if_neg hn]
    by_cases h1 : c.typeColumns.isEmpty <;>
      by_cases h2 : (managerOption opts c "remove_hyphens").truthy <;>
        simp [eventListen, h1, h2]

theorem C2_witness :
    (processKey articleSV.table.name articleSV.name =
      processKey articleSV.table.name articleSV.name) ∧
    processColumn default_options
        (processColumn default_options ⟨[], []⟩ articleSV) articleSV =
      processColumn default_options ⟨[], []⟩ articleSV :=
  ⟨rfl, (C2_theorem default_options ⟨[], []⟩ articleSV articleSV rfl).1⟩

/-- C3: `parse_search_query` never propagates a parser failure to its caller:
whenever the grammar parser rejects the normalized query (`none`, the model
of `pyparsing.ParseException`), the function returns the empty string. -/
theorem C3_theorem (ep : String → Bool) (pp : String → Option String)
    (q : String) (h : pp (normalized_query ep q) = none) :
    parse_search_query ep pp q = "" := by
  simp only [parse_search_query]
  by_cases he : normalized_query ep q = "" <;>
    simp [he, h]

theorem C3_witness :
    ((fun _ => (none : Option String)) (normalized_query emailM "(((") =
      none) ∧
    parse_search_query emailM (fun _ => none) "(((" = "" :=
  ⟨rfl, C3_theorem emailM (fun _ => none) "(((" rfl⟩

/-- C4: the option resolution of `SQLConstruct.__init__` returns, for every
key, the explicit call-site value when present, otherwise the column-declared
value, otherwise the defaults-dict value, and a missing tier (absent key or
absent column options) silently falls through; moreover the rendered
trigger-function body embeds the resolved catalog as its quoted literal, so a
call-time catalog overrides a column-declared catalog, which overrides the
default. -/
theorem C4_theorem (explicit colOpts : Option Dict) (defaults : Dict)
    (k : String) (col : SAColumn) :
    ((resolveOptions explicit colOpts defaults).find k =
      match (explicit.getD []).find k with
      | some v => some v
      | none =>
          (defaults.find k).map
            (fun dv => (colOpts.bind (fun d => d.find k)).getD dv)) ∧
    (∃ s t : String,
      createSearchFunctionSQLStr col
          (resolveOptions explicit colOpts defaults) =
        s ++ ("'" ++
          (optStr (resolveOptions explicit colOpts defaults) "catalog" ++
            ("', " ++ t)))) :=
  ⟨resolveOptions_find explicit colOpts defaults k, _, _, rfl⟩

/-- C5: registering a not-yet-processed searchable column registers the index
construct on after-create; if the column has source columns it also registers
the trigger construct on after-create, and if `remove_hyphens` is truthy as
well it additionally registers the trigger-function construct on
after-create and the drop-function construct on after-drop; a column with no
source columns gets only the index, and the registration order is index, then
function (and drop-function), then trigger. -/
theorem C5_theorem (opts : Dict) (st : RegState) (col : SAColumn)
    (h : processKey col.table.name col.name ∉ st.processed) :
    processColumn opts st col =
      { processed := st.processed ++ [processKey col.table.name col.name],
        regs := st.regs ++
          ((col.table.name, Phase.afterCreate,
              createSearchIndexSQLStr col
                (resolveOptions none col.typeOptions opts)) ::
            (if col.typeColumns.isEmpty then []
             else
               (if (managerOption opts col "remove_hyphens").truthy then
                  [(col.table.name, Phase.afterCreate,
                     createSearchFunctionSQLStr col
                       (resolveOptions none col.typeOptions opts)),
                   (col.table.name, Phase.afterDrop,
                     dropSearchFunctionSQLStr col
                       (resolveOptions none col.typeOptions opts))]
                else []) ++
               [(col.table.name, Phase.afterCreate,
                  createSearchTriggerSQLStr col
                    (resolveOptions none col.typeOptions opts))])) } := by
  unfold processColumn
  rw [if_neg h]
  by_cases h1 : col.typeColumns.isEmpty <;>
    by_cases h2 : (managerOption opts col "remove_hyphens").truthy <;>
      simp [eventListen, h1, h2]

theorem C5_witness :
    (processKey articleSVFull.table.name articleSVFull.name ∉
      (⟨[], []⟩ : RegState).processed) ∧
    processColumn default_options ⟨[], []⟩ articleSVFull =
      { processed := ([] : List String) ++
          [processKey articleSVFull.table.name articleSVFull.name],
        regs := ([] : List (String × Phase × String)) ++
          ((articleSVFull.table.name, Phase.afterCreate,
              createSearchIndexSQLStr articleSVFull
                (resolveOptions none articleSVFull.typeOptions
                  default_options)) ::
            (if articleSVFull.typeColumns.isEmpty then []
             else
               (if (managerOption default_options articleSVFull
                     "remove_hyphens").truthy then
                  [(articleSVFull.table.name, Phase.afterCreate,
                     createSearchFunctionSQLStr articleSVFull
                       (resolveOptions none articleSVFull.typeOptions
                         default_options)),
                   (articleSVFull.table.name, Phase.afterDrop,
                     dropSearchFunctionSQLStr articleSVFull
                       (resolveOptions none articleSVFull.typeOptions
                         default_options))]
                else []) ++
               [(articleSVFull.table.name, Phase.afterCreate,
                  createSearchTriggerSQLStr articleSVFull
                    (resolveOptions none articleSVFull.typeOptions
                      default_options))])) } :=
  ⟨by decide, C5_theorem default_options ⟨[], []⟩ articleSVFull (by decide)⟩

/-- C6, counterexample: the hyphen in `a|-b` is preceded by `|` — a
non-whitespace, non-start-of-string character — and followed by `b`, yet the
code leaves it untouched (the regex class `[^\s|^]` also excludes `|` and
`^`), while the claim demands it become a space. -/
theorem C6_counterexample :
    hyphenSub "a|-b" = "a|-b" ∧ hyphenSubClaim "a|-b" = "a| b" ∧
    isPySpace '|' = false ∧ ("a|-b" : String) ≠ "a| b" :=
  ⟨by decide, by decide, by decide, by decide⟩

/-- C6, amended: the normalization converts a hyphen into a space exactly
when it is preceded by a character that is neither whitespace nor a literal
`|` nor a literal `^` and followed by a non-whitespace character; every other
hyphen — at the start of the string, after whitespace, after `|` or `^`, at
the end, or before whitespace — is untouched. -/
theorem C6_theorem (l : List Char) (i : Nat) (h : i < l.length) :
    (hyphenSubL l).getD i 'X' =
      if (l.getD i 'X' = '-') &&
          (match i with
           | 0 => false
           | j + 1 => hyphPrevOK (some (l.getD j 'X'))) &&
          hyphNextOK (l.drop (i + 1)) then ' '
      else l.getD i 'X' := by
  cases i with
  | zero => simpa [hyphPrevOK] using hyphenSubAux_getD l none 0 h
  | succ j => simpa using hyphenSubAux_getD l none (j + 1) h

theorem C6_witness :
    (3 < ("foo-bar".toList).length) ∧
    (hyphenSubL "foo-bar".toList).getD 3 'X' =
      (if ("foo-bar".toList.getD 3 'X' = '-') &&
          (match (3 : Nat) with
           | 0 => false
           | j + 1 => hyphPrevOK (some ("foo-bar".toList.getD j 'X'))) &&
          hyphNextOK ("foo-bar".toList.drop (3 + 1)) then ' '
      else "foo-bar".toList.getD 3 'X') :=
  ⟨by decide, C6_theorem "foo-bar".toList 3 (by decide)⟩

/-- C7, counterexample: `filter_term` replaces the whole run `!!` with one
space and does not re-trim, so at `a!!b` and `abc!` it differs from the
claim's per-character-replace-then-trim reading. -/
theorem C7_counterexample :
    emailM "a!!b" = false ∧
    filter_term emailM "a!!b" = "a b" ∧
    filterTermClaim emailM "a!!b" = "a  b" ∧
    filter_term emailM "a!!b" ≠ filterTermClaim emailM "a!!b" ∧
    filter_term emailM "abc!" = "abc " ∧
    filterTermClaim emailM "abc!" = "abc" ∧
    filter_term emailM "abc!" ≠ filterTermClaim emailM "abc!" :=
  ⟨by decide, by decide, by decide, by decide, by decide, by decide,
   by decide⟩

/-- C7, amended: `filter_term` returns every token the email predicate
accepts unchanged; for every other token it replaces each maximal run of
characters outside the alphanumeric classes by a single space (equivalently:
per-character replacement followed by collapsing adjacent spaces) and does
not trim — the re-trim happens at the call site inside
`parse_search_query`. -/
theorem C7_theorem (ep : String → Bool) (t : String) (l : List Char) :
    (ep t = true → filter_term ep t = t) ∧
    (ep t = false →
      filter_term ep t =
        String.mk (squeezeSp false (perCharIllegal t.toList))) ∧
    subNonAlnumAux false l = squeezeSp false (perCharIllegal l) := by
  refine ⟨fun h => by simp [filter_term, h], fun h => ?_,
    subNonAlnumAux_eq_squeeze l false⟩
  simp [filter_term, h, subNonAlnumAux_eq_squeeze]

theorem C7_witness :
    emailM "foo@example.com" = true ∧
    filter_term emailM "foo@example.com" = "foo@example.com" :=
  ⟨by decide, (C7_theorem emailM "foo@example.com" []).1 (by decide)⟩

/-- C8, counterexample: for a column with no source columns and default
options (`remove_hyphens` true), the rendered procedure call invokes the
generated trigger function with no arguments, not the built-in
`tsvector_update_trigger` the claim's otherwise-branch requires. -/
theorem C8_counterexample :
    articleSV.typeColumns.isEmpty = true ∧
    search_trigger_function_with_trigger_args articleSV
        (resolveOptions none none default_options) =
      "article_search_vector_update()" ∧
    triggerProcedureClaim articleSV
        (resolveOptions none none default_options) =
      "tsvector_update_trigger(search_vector, 'pg_catalog.english')" ∧
    search_trigger_function_with_trigger_args articleSV
        (resolveOptions none none default_options) ≠
      triggerProcedureClaim articleSV
        (resolveOptions none none default_options) :=
  ⟨by decide, by decide, by decide, by decide⟩

/-- C8, amended: the procedure call of the rendered trigger statement depends
only on the truthiness of `remove_hyphens`: when truthy it invokes the
generated trigger function with no arguments regardless of source columns,
otherwise it invokes `tsvector_update_trigger` with the vector column name,
the quoted catalog, and the ordered source column list; when the column does
have source columns (the only case the orchestrator renders a trigger for)
this coincides with the claim's conditional. -/
theorem C8_theorem (col : SAColumn) (opts : Dict) :
    (createSearchTriggerSQLStr col opts =
      "CREATE TRIGGER " ++ search_trigger_name col opts ++
        " BEFORE UPDATE OR INSERT ON " ++ table_name col ++
        " FOR EACH ROW EXECUTE PROCEDURE " ++
        search_trigger_function_with_trigger_args col opts) ∧
    (((opts.find "remove_hyphens").getD .none0).truthy = true →
      search_trigger_function_with_trigger_args col opts =
        search_function_name col opts ++ "()") ∧
    (((opts.find "remove_hyphens").getD .none0).truthy = false →
      search_trigger_function_with_trigger_args col opts =
        "tsvector_update_trigger(" ++
          String.intercalate ", "
            ([col.name, "'" ++ optStr opts "catalog" ++ "'"] ++
              col.typeColumns) ++ ")") ∧
    (col.typeColumns.isEmpty = false →
      search_trigger_function_with_trigger_args col opts =
        triggerProcedureClaim col opts) := by
  refine ⟨rfl, fun h => ?_, fun h => ?_, fun h => ?_⟩
  · simp [search_trigger_function_with_trigger_args, h]
  · simp [search_trigger_function_with_trigger_args, h]
  · by_cases ht : ((opts.find "remove_hyphens").getD .none0).truthy <;>
      simp [search_trigger_function_with_trigger_args,
        triggerProcedureClaim, ht, h]

theorem C8_witness :
    ((((resolveOptions none none default_options).find
        "remove_hyphens").getD .none0).truthy = true) ∧
    search_trigger_function_with_trigger_args articleSVFull
        (resolveOptions none none default_options) =
      search_function_name articleSVFull
          (resolveOptions none none default_options) ++ "()" :=
  ⟨by decide,
   (C8_theorem articleSVFull
      (resolveOptions none none default_options)).2.1 (by decide)⟩

/-- C9, counterexample: tokens that filtering empties are kept by the join,
so `a ! b` hands the parser `a  b` (two spaces) rather than the claimed
single-space join of survivors; and for `! ?` the joined string is a single
space, so the grammar IS invoked although nothing survived filtering. -/
theorem C9_counterexample :
    normalized_query emailM "a ! b" = "a  b" ∧
    normalizedQueryClaim emailM "a ! b" = "a b" ∧
    normalized_query emailM "a ! b" ≠ normalizedQueryClaim emailM "a ! b" ∧
    normalized_query emailM "! ?" = " " ∧
    parse_search_query emailM (fun _ => some "INVOKED") "! ?" = "INVOKED" :=
  ⟨by decide, by decide, by decide, by decide, by decide⟩

/-- C9, amended: `parse_search_query` joins ALL filtered tokens — including
those filtering emptied — with single-space separators, so emptied tokens
leave extra spaces in the parser input; it returns the empty string without
consulting the parser exactly when that joined string is empty (as for input
`""` or `"   "`), and otherwise returns the parser's answer (empty string on
failure). -/
theorem C9_theorem (ep : String → Bool) (pp pq : String → Option String)
    (q : String) :
    (parse_search_query ep pp q =
      if normalized_query ep q = "" then ""
      else (pp (normalized_query ep q)).getD "") ∧
    (normalized_query ep q = "" →
      parse_search_query ep pp q = parse_search_query ep pq q) ∧
    parse_search_query ep pp "" = "" ∧
    parse_search_query ep pp "   " = "" := by
  refine ⟨?_, fun h => ?_, rfl, rfl⟩
  · simp only [parse_search_query]
    by_cases he : normalized_query ep q = ""
    · simp [he]
    · cases hp : pp (normalized_query ep q) <;> simp [he, hp]
  · simp [parse_search_query, h]

theorem C9_witness :
    normalized_query emailM "   " = "" ∧
    parse_search_query emailM (fun _ => some "X") "   " =
      parse_search_query emailM (fun _ => none) "   " :=
  ⟨by decide,
   (C9_theorem emailM (fun _ => some "X") (fun _ => none) "   ").2.1
     (by decide)⟩

/-- C10: `SearchManager.__init__` binds `self.options` to the class-level
`default_options` object itself and updates that shared object in place, so
the supplied values become the global defaults: a second manager constructed
afterwards aliases the same object, `make_searchable`'s update is the same
mutation, and a SQL construct resolved afterwards with no explicit or
column-declared options observes exactly the updated dict. -/
theorem C10_theorem (h : Heap) (u v : Dict) (k : String) :
    ((SearchManager_init h u).1.optionsRef = defaultOptionsRef) ∧
    ((SearchManager_init h u).2.get defaultOptionsRef =
      dictUpdate (h.get defaultOptionsRef) u) ∧
    ((SearchManager_init (SearchManager_init h u).2 v).1.optionsRef =
      (SearchManager_init h u).1.optionsRef) ∧
    (make_searchable h ⟨defaultOptionsRef⟩ u = (SearchManager_init h u).2) ∧
    ((resolveOptions none none
        ((SearchManager_init h u).2.get defaultOptionsRef)).find k =
      (dictUpdate (h.get defaultOptionsRef) u).find k) := by
  refine ⟨rfl, ?_, rfl, rfl, ?_⟩
  · cases h with
    | mk c0 rest => rfl
  · rw [resolveOptions_find]
    simp only [Option.getD_none, Dict.find]
    cases hf :
        (dictUpdate (h.get defaultOptionsRef) u).find k <;>
      cases h with
      | mk c0 rest => simp_all [SearchManager_init, Heap.get, Heap.set,
          defaultOptionsRef]
